import Mathlib

set_option maxHeartbeats 1000000

namespace Arison

/-! # Shallow embedding of the Arison backend database service

Embeds `DatabaseService` (src/backend/app/database/service.py) and the parts
of the data model (src/backend/app/database/models.py) needed to settle the
claims: the per-project review statistics pipeline and the filtered project
search.  Python float arithmetic is modelled exactly over `Rat`; clock reads
(`datetime.now()`) are passed in explicitly as `Nat` timestamps. -/

/-- A stored citizen review row (table `citizen_reports`, models.py
`CitizenReport`), restricted to the columns read by
`DatabaseService.recalculate_project_statistics`.  `photo_urls` holds the
decoded JSON list, `none` for a SQL NULL column; `quality_rating` is the
nullable integer column. -/
structure Report where
  review_type : String
  work_completed : Bool
  quality_rating : Option Int
  photo_urls : Option (List String)
  verified : Bool
  deriving Repr, DecidableEq

/-- A row of the `project_statistics` table (models.py `ProjectStatistics`)
for a fixed project.  `last_calculated` is the timestamp the upsert writes. -/
structure StatsRow where
  total_reviews : Nat
  work_completed_percentage : Rat
  average_quality_rating : Option Rat
  reviews_with_images : Nat
  verified_reviews : Nat
  progress_updates : Nat
  quality_issues : Nat
  completion_verifications : Nat
  delay_reports : Nat
  fraud_alerts : Nat
  last_calculated : Nat
  deriving Repr, DecidableEq

/-- ASCII lowering of one character: the effect of Python `str.lower()` on
the ASCII labels this service stores and compares. -/
def lowerChar (c : Char) : Char :=
  if 'A' ≤ c && c ≤ 'Z' then Char.ofNat (c.toNat + 32) else c

/-- Python `s.lower()` on ASCII text, character by character. -/
def lowerStr (s : String) : String := String.mk (s.data.map lowerChar)

/-- `report["review_type"].lower().replace(" ", "_")` (service.py line 401);
the single-character replacement maps each space to an underscore. -/
def normType (s : String) : String :=
  String.mk ((lowerStr s).data.map fun c => if c = ' ' then '_' else c)

/-- The five per-type counters initialised at service.py lines 392-398. -/
structure TypeCounts where
  progress_updates : Nat
  quality_issues : Nat
  completion_verifications : Nat
  delay_reports : Nat
  fraud_alerts : Nat
  deriving Repr, DecidableEq

def TypeCounts.init : TypeCounts := ⟨0, 0, 0, 0, 0⟩

/-- One step of the `for report in reports` loop (service.py lines 400-411):
the normalized type label bumps at most one counter; a label matching no
canonical form bumps none. -/
def bumpType (c : TypeCounts) (r : Report) : TypeCounts :=
  let t := normType r.review_type
  if t = "progress_update" then { c with progress_updates := c.progress_updates + 1 }
  else if t = "quality_issue" then { c with quality_issues := c.quality_issues + 1 }
  else if t = "completion_verification" then
    { c with completion_verifications := c.completion_verifications + 1 }
  else if t = "delay_report" then { c with delay_reports := c.delay_reports + 1 }
  else if t = "fraud_alert" then { c with fraud_alerts := c.fraud_alerts + 1 }
  else c

def countTypes (reports : List Report) : TypeCounts :=
  reports.foldl bumpType TypeCounts.init

/-- Whether a review's normalized type label matches one of the five canonical
forms tested by the `if`/`elif` chain at service.py lines 402-411. -/
def isCanonicalType (r : Report) : Bool :=
  let t := normType r.review_type
  t == "progress_update" || t == "quality_issue" || t == "completion_verification" ||
    t == "delay_report" || t == "fraud_alert"

/-- `[r["quality_rating"] for r in reports if r["quality_rating"]]`
(service.py line 383): Python int truthiness keeps exactly the present,
nonzero ratings. -/
def pickedRatings (reports : List Report) : List Int :=
  reports.filterMap fun r =>
    match r.quality_rating with
    | none => none
    | some v => if v = 0 then none else some v

/-- `r["photo_urls"] and json.loads(r["photo_urls"])` (service.py line 387):
a NULL column is falsy; otherwise the JSON text is a non-empty string (truthy)
and the loaded list is truthy iff non-empty. -/
def hasImages (r : Report) : Bool :=
  match r.photo_urls with
  | none => false
  | some l => !l.isEmpty

/-- The statistics computed by `recalculate_project_statistics` (service.py
lines 377-411) from the project's reports, with
`last_calculated = datetime.now()` as passed to the upsert (line 452). -/
def computeStats (reports : List Report) (now : Nat) : StatsRow :=
  let total := reports.length
  let workCompletedCount := reports.countP fun r => r.work_completed
  let wcp : Rat :=
    if total > 0 then ((workCompletedCount : Rat) / (total : Rat)) * 100 else 0
  let ratings := pickedRatings reports
  let avg : Option Rat :=
    if ratings.isEmpty then none
    else some ((ratings.map (fun v => (v : Rat))).sum / (ratings.length : Rat))
  let c := countTypes reports
  { total_reviews := total
    work_completed_percentage := wcp
    average_quality_rating := avg
    reviews_with_images := reports.countP hasImages
    verified_reviews := reports.countP fun r => r.verified
    progress_updates := c.progress_updates
    quality_issues := c.quality_issues
    completion_verifications := c.completion_verifications
    delay_reports := c.delay_reports
    fraud_alerts := c.fraud_alerts
    last_calculated := now }

/-- The entity-store state relevant to one project: its `citizen_reports`
rows and its at most one (unique constraint on `project_id`) cached
`project_statistics` row. -/
structure PState where
  reports : List Report
  stats : Option StatsRow
  deriving Repr, DecidableEq

/-- `recalculate_project_statistics` (service.py lines 366-454): read all the
project's reports, compute the statistics, upsert them (`ON CONFLICT (project_id)
DO UPDATE` overwrites every column).  `now` is the `datetime.now()` value read
during the call. -/
def recalculate (now : Nat) (st : PState) : PState :=
  { st with stats := some (computeStats st.reports now) }

/-- The dictionary returned by `get_project_statistics` (service.py lines
341-364); `review_type_breakdown` is the JSON object as an ordered
key/count list. -/
structure Snapshot where
  total_reviews : Nat
  work_completed_percentage : Rat
  average_quality_rating : Option Rat
  reviews_with_images : Nat
  verified_reviews : Nat
  review_type_breakdown : List (String × Nat)
  deriving Repr, DecidableEq

/-- Formatting of an existing statistics row (service.py lines 341-355). -/
def formatStats (row : StatsRow) : Snapshot :=
  { total_reviews := row.total_reviews
    work_completed_percentage := row.work_completed_percentage
    average_quality_rating := row.average_quality_rating
    reviews_with_images := row.reviews_with_images
    verified_reviews := row.verified_reviews
    review_type_breakdown :=
      [("Progress Update", row.progress_updates),
       ("Quality Issue", row.quality_issues),
       ("Completion Verification", row.completion_verifications),
       ("Delay Report", row.delay_reports),
       ("Fraud Alert", row.fraud_alerts)] }

/-- The all-zero dictionary returned when no row exists even after
recalculation (service.py lines 357-364). -/
def emptySnapshot : Snapshot :=
  { total_reviews := 0
    work_completed_percentage := 0
    average_quality_rating := none
    reviews_with_images := 0
    verified_reviews := 0
    review_type_breakdown := [] }

/-- `get_project_statistics` (service.py lines 326-364): fetch the cached
row; if absent, recalculate and refetch.  Returns the formatted snapshot and
the possibly updated state. -/
def getProjectStatistics (st : PState) (now : Nat) : Snapshot × PState :=
  match st.stats with
  | some row => (formatStats row, st)
  | none =>
    let st1 := recalculate now st
    match st1.stats with
    | some row => (formatStats row, st1)
    | none => (emptySnapshot, st1)

/-- `create_citizen_report` (service.py lines 174-245) restricted to its
statistics-relevant effects.  The INSERT commits on its own (the `databases`
driver runs each statement outside any transaction); then
`recalculate_project_statistics` runs with no surrounding try/except, so a
store failure inside the recompute propagates to the caller as the call's
outcome while the inserted row stays in place and the cached statistics row
is left untouched.  `recalcFails` says whether the recompute's store
operations fail. -/
def createCitizenReport (recalcFails : Bool) (now : Nat) (r : Report) (st : PState) :
    Except Unit Report × PState :=
  let st1 : PState := { st with reports := st.reports ++ [r] }
  if recalcFails then (Except.error (), st1)
  else (Except.ok r, recalculate now st1)

/-! ## The filtered project search (`get_all_projects`, service.py lines 18-97) -/

/-- The JSON text at `procurement_plan->>'contract_amount'` as seen by
`CAST(... AS FLOAT)`: `numeric` for text PostgreSQL parses as a number (with
its value), `malformed` for text it rejects.  An absent key or JSON null
yields SQL NULL, modelled as `none` at the field. -/
inductive ContractAmount where
  | numeric (q : Rat)
  | malformed (s : String)
  deriving Repr, DecidableEq

/-- A row of `projects` restricted to the columns `get_all_projects` reads in
its WHERE/ORDER BY clauses; the three nested `procurement_plan` fields are
stored pre-extracted (`->>` yields NULL, hence `none`, when absent). -/
structure ProjectRow where
  id : String
  ministry : String
  status : String
  fiscal_year : String
  created_at : Nat
  contract_amount : Option ContractAmount
  details_of_work : Option String
  contractor_name : Option String
  deriving Repr, DecidableEq

/-- The keyword arguments of `get_all_projects` (service.py lines 19-27). -/
structure Params where
  ministry : Option String := none
  status : Option String := none
  fiscal_year : Option String := none
  min_amount : Option Rat := none
  max_amount : Option Rat := none
  search : Option String := none
  limit : Nat := 100
  offset : Nat := 0
  deriving Repr, DecidableEq

/-- Python truthiness of an optional string argument (`if ministry:` etc.):
truthy iff present and non-empty. -/
def strTruthy : Option String → Bool
  | none => false
  | some s => !s.data.isEmpty

/-- Python truthiness of an optional float argument (`if min_amount:`):
truthy iff present and nonzero. -/
def amtTruthy : Option Rat → Bool
  | none => false
  | some q => q != 0

/-- Contiguous match of `pat` at the head of `hay`. -/
def leadMatch : List Char → List Char → Bool
  | [], _ => true
  | _ :: _, [] => false
  | p :: ps, h :: hs => p == h && leadMatch ps hs

/-- `pat` occurs contiguously somewhere in `hay`. -/
def subMatch (pat : List Char) : List Char → Bool
  | [] => leadMatch pat []
  | h :: hs => leadMatch pat (h :: hs) || subMatch pat hs

/-- `column ILIKE '%term%'` (PostgreSQL): case-insensitive containment of the
term in the column text.  Exact for terms free of the `%`/`_` metacharacters. -/
def ilikeContains (field term : String) : Bool :=
  subMatch (lowerStr term).data (lowerStr field).data

/-- `ILIKE` against a nullable extracted field: SQL NULL makes the comparison
unknown, which the WHERE clause treats as not matching. -/
def ilikeOptContains (field : Option String) (term : String) : Bool :=
  match field with
  | none => false
  | some s => ilikeContains s term

/-- The `p.ministry ILIKE :ministry` clause with pattern `%ministry%`, present
iff the argument is truthy (service.py lines 39-41). -/
def ministryCond (p : Params) (r : ProjectRow) : Bool :=
  if strTruthy p.ministry then ilikeContains r.ministry (p.ministry.getD "") else true

/-- The `p.status = :status` clause (service.py lines 43-45). -/
def statusCond (p : Params) (r : ProjectRow) : Bool :=
  if strTruthy p.status then r.status == p.status.getD "" else true

/-- The `p.fiscal_year = :fiscal_year` clause (service.py lines 47-49). -/
def fiscalCond (p : Params) (r : ProjectRow) : Bool :=
  if strTruthy p.fiscal_year then r.fiscal_year == p.fiscal_year.getD "" else true

/-- `CAST(p.procurement_plan->>'contract_amount' AS FLOAT)`: NULL casts to
NULL; malformed text makes PostgreSQL abort the query with an error. -/
def castAmount : Option ContractAmount → Except Unit (Option Rat)
  | none => Except.ok none
  | some (ContractAmount.numeric q) => Except.ok (some q)
  | some (ContractAmount.malformed _) => Except.error ()

/-- The `CAST(...) >= :min_amount` clause (service.py lines 51-55), present
iff `min_amount` is truthy; a NULL cast result makes the comparison unknown,
hence not matching. -/
def minAmountCond (p : Params) (r : ProjectRow) : Except Unit Bool :=
  if amtTruthy p.min_amount then
    match castAmount r.contract_amount with
    | Except.error e => Except.error e
    | Except.ok (some q) => Except.ok (decide (p.min_amount.getD 0 ≤ q))
    | Except.ok none => Except.ok false
  else Except.ok true

/-- The `CAST(...) <= :max_amount` clause (service.py lines 56-58). -/
def maxAmountCond (p : Params) (r : ProjectRow) : Except Unit Bool :=
  if amtTruthy p.max_amount then
    match castAmount r.contract_amount with
    | Except.error e => Except.error e
    | Except.ok (some q) => Except.ok (decide (q ≤ p.max_amount.getD 0))
    | Except.ok none => Except.ok false
  else Except.ok true

/-- The free-text clause (service.py lines 60-66): ministry OR the nested
details-of-work field OR the nested contractor-name field, each matched with
`ILIKE '%search%'`. -/
def searchCond (p : Params) (r : ProjectRow) : Bool :=
  if strTruthy p.search then
    let t := p.search.getD ""
    ilikeContains r.ministry t || ilikeOptContains r.details_of_work t ||
      ilikeOptContains r.contractor_name t
  else true

/-- The whole WHERE clause built by `get_all_projects`, evaluated on one row.
Clauses appear in the order the source appends them; a malformed amount cast
aborts evaluation with an error. -/
def rowPred (p : Params) (r : ProjectRow) : Except Unit Bool :=
  if !ministryCond p r then Except.ok false
  else if !statusCond p r then Except.ok false
  else if !fiscalCond p r then Except.ok false
  else
    match minAmountCond p r with
    | Except.error e => Except.error e
    | Except.ok bmin =>
      if !bmin then Except.ok false
      else
        match maxAmountCond p r with
        | Except.error e => Except.error e
        | Except.ok bmax =>
          if !bmax then Except.ok false
          else Except.ok (searchCond p r)

/-- Whether the WHERE clause accepts the row, an error counting as not
accepted; describes the rows of a successful query. -/
def rowPasses (p : Params) (r : ProjectRow) : Bool :=
  match rowPred p r with
  | Except.ok b => b
  | Except.error _ => false

/-- Row-by-row evaluation of the WHERE clause over the scanned table; the
first failing cast aborts the whole query. -/
def filterExcept (f : ProjectRow → Except Unit Bool) :
    List ProjectRow → Except Unit (List ProjectRow)
  | [] => Except.ok []
  | x :: xs =>
    match f x with
    | Except.error e => Except.error e
    | Except.ok b =>
      match filterExcept f xs with
      | Except.error e => Except.error e
      | Except.ok rest => Except.ok (if b then x :: rest else rest)

/-- Insertion into a list kept in descending `created_at` order. -/
def insertByCreated (r : ProjectRow) : List ProjectRow → List ProjectRow
  | [] => [r]
  | x :: xs =>
    if x.created_at < r.created_at then r :: x :: xs else x :: insertByCreated r xs

/-- `ORDER BY p.created_at DESC` (service.py line 68). -/
def sortByCreatedDesc (l : List ProjectRow) : List ProjectRow :=
  l.foldr insertByCreated []

/-- `get_all_projects` (service.py lines 18-97) at the row level: filter,
order by creation time most recent first, then apply `OFFSET` and `LIMIT`. -/
def getAllProjects (p : Params) (table : List ProjectRow) :
    Except Unit (List ProjectRow) :=
  match filterExcept (rowPred p) table with
  | Except.error e => Except.error e
  | Except.ok m => Except.ok (((sortByCreatedDesc m).drop p.offset).take p.limit)

/-! ## Concrete inputs used by witnesses and counterexamples -/

/-- A sample review: a completed Progress Update with rating 4, no photos. -/
def rEx : Report :=
  { review_type := "Progress Update", work_completed := true,
    quality_rating := some 4, photo_urls := some [], verified := true }

/-- A one-review project state with no cached statistics row. -/
def stEx : PState := { reports := [rEx], stats := none }

/-- A project row whose nested contract amount is JSON text PostgreSQL cannot
cast to a number. -/
def rowBad : ProjectRow :=
  { id := "p1", ministry := "Ministry of Works", status := "In Progress",
    fiscal_year := "2080/81", created_at := 5,
    contract_amount := some (ContractAmount.malformed "abc"),
    details_of_work := some "road", contractor_name := some "ACME" }

/-- A project row with no contract amount recorded (SQL NULL). -/
def rowNull : ProjectRow :=
  { id := "p2", ministry := "Ministry of Health", status := "Planning",
    fiscal_year := "2080/81", created_at := 3, contract_amount := none,
    details_of_work := none, contractor_name := none }

/-- A project row matching the term "Road" in its details-of-work field. -/
def rowS : ProjectRow :=
  { id := "p3", ministry := "Ministry of Works", status := "In Progress",
    fiscal_year := "2080/81", created_at := 7,
    contract_amount := some (ContractAmount.numeric 500),
    details_of_work := some "Building roads in region",
    contractor_name := some "ACME Builders" }

/-- Query arguments carrying only a minimum-amount bound. -/
def pMin : Params := { min_amount := some 100 }

/-- Query arguments carrying only a free-text search term. -/
def pSearch : Params := { search := some "Road" }

/-! ## Claim theorems -/

/-- C1: for a project with zero reviews and no pre-existing statistics row,
`get_project_statistics` does NOT return an empty review-type breakdown: the
recalculation it triggers inserts a row, and formatting a stored row always
lists the five canonical types.  Refutes the claimed
`review_type_breakdown = {}`. -/
theorem zero_reviews_breakdown_not_empty :
    ¬ (getProjectStatistics { reports := [], stats := none } 0).1.review_type_breakdown
      = [] := by
  decide

/-- C1 (amended): with zero reviews and no pre-existing statistics row,
`get_project_statistics` returns `total_reviews = 0`, a null average quality
rating, and a review-type breakdown mapping each of the five canonical review
types to 0 (not the empty mapping). -/
theorem zero_reviews_snapshot_eq (now : Nat) :
    (getProjectStatistics { reports := [], stats := none } now).1 =
      { total_reviews := 0
        work_completed_percentage := 0
        average_quality_rating := none
        reviews_with_images := 0
        verified_reviews := 0
        review_type_breakdown :=
          [("Progress Update", 0), ("Quality Issue", 0),
           ("Completion Verification", 0), ("Delay Report", 0),
           ("Fraud Alert", 0)] } := rfl

/-- C8: two immediately successive recalculations are NOT byte-identical:
each call stamps `last_calculated` with its own clock reading, so the stored
rows differ whenever the clock advanced between the calls. -/
theorem recalc_twice_rows_differ :
    (recalculate 1 (recalculate 0 stEx)).stats ≠ (recalculate 0 stEx).stats := by
  intro h
  have h1 : computeStats stEx.reports 1 = computeStats stEx.reports 0 := by
    simpa [recalculate] using h
  have h2 := congrArg StatsRow.last_calculated h1
  simp [computeStats] at h2

/-- C8 (amended): with no intervening review writes, a second recalculation
stores statistics computed from the same reports: every column except
`last_calculated` is identical between the two stored rows, and
`last_calculated` holds each call's own clock reading. -/
theorem recalc_twice_stats_fields_eq (st : PState) (t1 t2 : Nat) :
    (recalculate t2 (recalculate t1 st)).stats = some (computeStats st.reports t2) ∧
    (recalculate t1 st).stats = some (computeStats st.reports t1) ∧
    (computeStats st.reports t2).total_reviews
      = (computeStats st.reports t1).total_reviews ∧
    (computeStats st.reports t2).work_completed_percentage
      = (computeStats st.reports t1).work_completed_percentage ∧
    (computeStats st.reports t2).average_quality_rating
      = (computeStats st.reports t1).average_quality_rating ∧
    (computeStats st.reports t2).reviews_with_images
      = (computeStats st.reports t1).reviews_with_images ∧
    (computeStats st.reports t2).verified_reviews
      = (computeStats st.reports t1).verified_reviews ∧
    (computeStats st.reports t2).progress_updates
      = (computeStats st.reports t1).progress_updates ∧
    (computeStats st.reports t2).quality_issues
      = (computeStats st.reports t1).quality_issues ∧
    (computeStats st.reports t2).completion_verifications
      = (computeStats st.reports t1).completion_verifications ∧
    (computeStats st.reports t2).delay_reports
      = (computeStats st.reports t1).delay_reports ∧
    (computeStats st.reports t2).fraud_alerts
      = (computeStats st.reports t1).fraud_alerts ∧
    (computeStats st.reports t2).last_calculated = t2 ∧
    (computeStats st.reports t1).last_calculated = t1 :=
  ⟨rfl, rfl, rfl, rfl, rfl, rfl, rfl, rfl, rfl, rfl, rfl, rfl, rfl, rfl⟩

/-- C9: a failing statistics recompute after a successful review insert IS
surfaced to the `createReview` caller: `create_citizen_report` wraps no
try/except around the recompute, so the error becomes the call's outcome.
Refutes the claimed silent failure. -/
theorem recalc_failure_surfaced :
    (createCitizenReport true 0 rEx stEx).1 = Except.error () := rfl

/-- C9 (amended): when the recompute fails, the error propagates to the
`createReview` caller; but the inserted review stays durably stored (the
insert committed on its own statement and is not rolled back) and the cached
statistics row is merely left stale; on success the same insert is followed
by a fresh recompute. -/
theorem recalc_failure_insert_durable (now : Nat) (r : Report) (st : PState) :
    (createCitizenReport true now r st).1 = Except.error () ∧
    (createCitizenReport true now r st).2.reports = st.reports ++ [r] ∧
    (createCitizenReport true now r st).2.stats = st.stats ∧
    (createCitizenReport false now r st).1 = Except.ok r ∧
    (createCitizenReport false now r st).2.reports = st.reports ++ [r] :=
  ⟨rfl, rfl, rfl, rfl, rfl⟩

/-- C5: a row whose nested contract amount is non-numeric text makes an
amount-bounded query fail as a whole: the PostgreSQL `CAST` raises a
query-level error instead of excluding the row.  Refutes "such a malformed
value never causes the whole query to fail". -/
theorem malformed_amount_aborts_query :
    getAllProjects pMin [rowBad] = Except.error () := rfl

/-- Unfolding of the `work_completed_percentage` computation
(service.py lines 378-381). -/
lemma computeStats_wcp (reports : List Report) (now : Nat) :
    (computeStats reports now).work_completed_percentage =
      if 0 < reports.length then
        ((reports.countP fun r => r.work_completed : Nat) : Rat) /
          (reports.length : Rat) * 100
      else 0 := rfl

/-- C2: `recalculate_project_statistics` stores the recomputed row, whose
`work_completed_percentage` is 0 for an empty review set and otherwise equals
`100 * count(work_completed = true) / total`, computed over exact
rationals. -/
theorem work_completed_percentage_spec (st : PState) (now : Nat) :
    (recalculate now st).stats = some (computeStats st.reports now) ∧
    (st.reports = [] →
      (computeStats st.reports now).work_completed_percentage = 0) ∧
    (st.reports ≠ [] →
      (computeStats st.reports now).work_completed_percentage =
        100 * (st.reports.countP (fun r => r.work_completed) : Rat) /
          (st.reports.length : Rat)) := by
  refine ⟨rfl, ?_, ?_⟩
  · intro h
    simp [computeStats_wcp, h]
  · intro h
    have hl : 0 < st.reports.length := List.length_pos.mpr h
    rw [computeStats_wcp, if_pos hl]
    ring

/-- Witness for C2 on a concrete one-review set. -/
theorem work_completed_percentage_spec_witness :
    stEx.reports ≠ [] ∧
    (computeStats stEx.reports 0).work_completed_percentage =
      100 * (stEx.reports.countP (fun r => r.work_completed) : Rat) /
        (stEx.reports.length : Rat) := by
  have h : stEx.reports ≠ [] := by simp [stEx]
  exact ⟨h, (work_completed_percentage_spec stEx 0).2.2 h⟩

/-- Under the API validation (each present rating is at least 1), the
truthiness filter at service.py line 383 keeps exactly the non-null
ratings. -/
lemma pickedRatings_eq (reports : List Report)
    (h : ∀ r ∈ reports, ∀ v, r.quality_rating = some v → 1 ≤ v) :
    pickedRatings reports = reports.filterMap fun r => r.quality_rating := by
  induction reports with
  | nil => rfl
  | cons r rs ih =>
    have hr : ∀ v, r.quality_rating = some v → 1 ≤ v := fun v hv => h r (by simp) v hv
    have hrs : ∀ x ∈ rs, ∀ v, x.quality_rating = some v → 1 ≤ v :=
      fun x hx v hv => h x (by simp [hx]) v hv
    simp only [pickedRatings] at ih ⊢
    rw [List.filterMap_cons, List.filterMap_cons]
    cases hq : r.quality_rating with
    | none => simp [hq, ih hrs]
    | some v =>
      have h0 : v ≠ 0 := by have := hr v hq; omega
      simp [hq, h0, ih hrs]

/-- Unfolding of the `average_quality_rating` computation
(service.py lines 383-384). -/
lemma computeStats_avg (reports : List Report) (now : Nat) :
    (computeStats reports now).average_quality_rating =
      if (pickedRatings reports).isEmpty then none
      else some (((pickedRatings reports).map fun v => (v : Rat)).sum /
        ((pickedRatings reports).length : Rat)) := rfl

/-- C3: over review sets whose ratings respect the API validation (each
present rating is at least 1; reviews.py line 129 enforces 1-5), the computed
`average_quality_rating` is null iff no review carries a non-null rating, and
otherwise equals the arithmetic mean of the non-null ratings, reviews with a
null rating being excluded. -/
theorem average_quality_rating_spec (reports : List Report) (now : Nat)
    (h : ∀ r ∈ reports, ∀ v, r.quality_rating = some v → 1 ≤ v) :
    ((computeStats reports now).average_quality_rating = none ↔
      ∀ r ∈ reports, r.quality_rating = none) ∧
    ((∃ r ∈ reports, r.quality_rating ≠ none) →
      (computeStats reports now).average_quality_rating =
        some ((((reports.filterMap fun r => r.quality_rating) : List Int).map
            (fun v => (v : Rat))).sum /
          ((reports.filterMap fun r => r.quality_rating).length : Rat))) := by
  rw [computeStats_avg, pickedRatings_eq reports h]
  by_cases he : (reports.filterMap fun r => r.quality_rating) = []
  · rw [if_pos (by simp [he])]
    rw [List.filterMap_eq_nil_iff] at he
    refine ⟨⟨fun _ => he, fun _ => rfl⟩, ?_⟩
    rintro ⟨r, hr, hq⟩
    exact absurd (he r hr) hq
  · rw [if_neg (by simp [he])]
    refine ⟨⟨fun hc => absurd hc (by simp), fun hall => absurd ?_ he⟩, fun _ => rfl⟩
    rw [List.filterMap_eq_nil_iff]
    exact hall

/-- Witness for C3 on a concrete one-review set with rating 4. -/
theorem average_quality_rating_spec_witness :
    (∀ r ∈ stEx.reports, ∀ v, r.quality_rating = some v → 1 ≤ v) ∧
    (computeStats stEx.reports 0).average_quality_rating = some 4 := by
  have h0 : ∀ r ∈ stEx.reports, ∀ v, r.quality_rating = some v → 1 ≤ v := by
    intro r hr v hv
    simp only [stEx, List.mem_singleton] at hr
    subst hr
    simp only [rEx, Option.some.injEq] at hv
    omega
  refine ⟨h0, ?_⟩
  have h2 := (average_quality_rating_spec stEx.reports 0 h0).2
    ⟨rEx, by simp [stEx], by simp [rEx]⟩
  rw [h2]
  norm_num [stEx, rEx, List.filterMap_cons]

/-- The sum of the five per-type counters. -/
def TypeCounts.total (c : TypeCounts) : Nat :=
  c.progress_updates + c.quality_issues + c.completion_verifications +
    c.delay_reports + c.fraud_alerts

/-- One loop step adds 1 to the counter sum exactly when the review's
normalized type label is canonical. -/
lemma bumpType_total (c : TypeCounts) (r : Report) :
    (bumpType c r).total = c.total + (if isCanonicalType r then 1 else 0) := by
  simp only [bumpType, isCanonicalType, TypeCounts.total]
  split_ifs <;> simp_all <;> omega

/-- The loop over reports adds one per canonically-typed report to the
counter sum. -/
lemma countTypes_total (l : List Report) :
    ∀ c : TypeCounts, (l.foldl bumpType c).total = c.total + l.countP isCanonicalType := by
  induction l with
  | nil => intro c; simp
  | cons r rs ih =>
    intro c
    rw [List.foldl_cons, ih, bumpType_total, List.countP_cons]
    cases h : isCanonicalType r
    · simp [h]
    · simp [h]
      omega

/-- C4: the five per-type counts computed by
`recalculate_project_statistics` sum to at most the total review count, with
equality exactly when every review's type label normalizes (lowercasing and
mapping spaces to underscores) to one of the five canonical forms; a review
whose label fails normalization contributes to no bucket. -/
theorem type_counts_sum_le_total (reports : List Report) (now : Nat) :
    (computeStats reports now).progress_updates +
        (computeStats reports now).quality_issues +
        (computeStats reports now).completion_verifications +
        (computeStats reports now).delay_reports +
        (computeStats reports now).fraud_alerts
      ≤ (computeStats reports now).total_reviews ∧
    ((computeStats reports now).progress_updates +
        (computeStats reports now).quality_issues +
        (computeStats reports now).completion_verifications +
        (computeStats reports now).delay_reports +
        (computeStats reports now).fraud_alerts
      = (computeStats reports now).total_reviews ↔
      ∀ r ∈ reports, isCanonicalType r = true) := by
  have h1 : (countTypes reports).total = reports.countP isCanonicalType := by
    have h := countTypes_total reports TypeCounts.init
    simpa [countTypes, TypeCounts.total, TypeCounts.init] using h
  constructor
  · show (countTypes reports).total ≤ reports.length
    rw [h1]
    exact List.countP_le_length _
  · show (countTypes reports).total = reports.length ↔ _
    rw [h1]
    exact List.countP_eq_length

/-- A successful WHERE-clause scan returns exactly the rows the clause
accepts, in table order. -/
lemma filterExcept_ok (p : Params) (l : List ProjectRow) :
    ∀ m, filterExcept (rowPred p) l = Except.ok m → m = l.filter (rowPasses p) := by
  induction l with
  | nil =>
    intro m h
    simp only [filterExcept] at h
    simp only [List.filter_nil]
    exact (Except.ok.inj h).symm
  | cons x xs ih =>
    intro m h
    simp only [filterExcept] at h
    cases hf : rowPred p x with
    | error e =>
      simp only [hf] at h
      exact Except.noConfusion h
    | ok b =>
      simp only [hf] at h
      cases hrest : filterExcept (rowPred p) xs with
      | error e =>
        simp only [hrest] at h
        exact Except.noConfusion h
      | ok rest =>
        simp only [hrest] at h
        have hm : (if b then x :: rest else rest) = m := Except.ok.inj h
        have hb : rowPasses p x = b := by simp [rowPasses, hf]
        rw [List.filter_cons, hb, ← hm, ih rest hrest]

/-- Membership through descending insertion. -/
lemma mem_insertByCreated {y r : ProjectRow} : ∀ {l : List ProjectRow},
    y ∈ insertByCreated r l ↔ y = r ∨ y ∈ l := by
  intro l
  induction l with
  | nil => simp [insertByCreated]
  | cons x xs ih =>
    simp only [insertByCreated]
    split_ifs with hc
    · simp [List.mem_cons]
    · simp only [List.mem_cons, ih]
      tauto

/-- Sorting by creation time permutes membership. -/
lemma mem_sortByCreatedDesc {y : ProjectRow} : ∀ {l : List ProjectRow},
    y ∈ sortByCreatedDesc l ↔ y ∈ l := by
  intro l
  induction l with
  | nil => simp [sortByCreatedDesc]
  | cons x xs ih =>
    simp only [sortByCreatedDesc, List.foldr_cons] at ih ⊢
    rw [mem_insertByCreated, ih, List.mem_cons]

/-- Descending insertion preserves the descending order invariant. -/
lemma pairwise_insertByCreated {r : ProjectRow} : ∀ {l : List ProjectRow},
    l.Pairwise (fun a b => b.created_at ≤ a.created_at) →
    (insertByCreated r l).Pairwise (fun a b => b.created_at ≤ a.created_at) := by
  intro l
  induction l with
  | nil =>
    intro _
    simp [insertByCreated]
  | cons x xs ih =>
    intro hp
    rw [List.pairwise_cons] at hp
    obtain ⟨hx, hxs⟩ := hp
    simp only [insertByCreated]
    split_ifs with hc
    · rw [List.pairwise_cons]
      constructor
      · intro y hy
        rcases List.mem_cons.mp hy with rfl | hy2
        · omega
        · have := hx y hy2
          omega
      · rw [List.pairwise_cons]
        exact ⟨hx, hxs⟩
    · rw [List.pairwise_cons]
      constructor
      · intro y hy
        rcases mem_insertByCreated.mp hy with rfl | hy2
        · omega
        · exact hx y hy2
      · exact ih hxs

/-- The sorted table is in descending creation-time order. -/
lemma pairwise_sortByCreatedDesc (l : List ProjectRow) :
    (sortByCreatedDesc l).Pairwise (fun a b => b.created_at ≤ a.created_at) := by
  induction l with
  | nil => simp [sortByCreatedDesc]
  | cons x xs ih =>
    simp only [sortByCreatedDesc, List.foldr_cons] at ih ⊢
    exact pairwise_insertByCreated ih

/-- Every row of a successful query's output was accepted by the WHERE
clause. -/
lemma mem_out_rowPasses (p : Params) (table out : List ProjectRow) (r : ProjectRow)
    (hq : getAllProjects p table = Except.ok out) (hr : r ∈ out) :
    rowPasses p r = true := by
  unfold getAllProjects at hq
  cases hm : filterExcept (rowPred p) table with
  | error e =>
    simp only [hm] at hq
    exact Except.noConfusion hq
  | ok m =>
    simp only [hm] at hq
    have hout := Except.ok.inj hq
    rw [← hout] at hr
    have h1 : r ∈ sortByCreatedDesc m :=
      ((List.take_sublist _ _).trans (List.drop_sublist _ _)).subset hr
    have h2 : r ∈ m := mem_sortByCreatedDesc.mp h1
    rw [filterExcept_ok p table m hm] at h2
    exact (List.mem_filter.mp h2).2

/-- Decomposition of an accepted row: every clause of the WHERE conjunction
held. -/
lemma rowPasses_true (p : Params) (r : ProjectRow) (h : rowPasses p r = true) :
    ministryCond p r = true ∧ statusCond p r = true ∧ fiscalCond p r = true ∧
    minAmountCond p r = Except.ok true ∧ maxAmountCond p r = Except.ok true ∧
    searchCond p r = true := by
  cases hm : ministryCond p r with
  | false => simp [rowPasses, rowPred, hm] at h
  | true =>
    cases hs : statusCond p r with
    | false => simp [rowPasses, rowPred, hm, hs] at h
    | true =>
      cases hfi : fiscalCond p r with
      | false => simp [rowPasses, rowPred, hm, hs, hfi] at h
      | true =>
        cases hmin : minAmountCond p r with
        | error e => simp [rowPasses, rowPred, hm, hs, hfi, hmin] at h
        | ok bmin =>
          cases bmin with
          | false => simp [rowPasses, rowPred, hm, hs, hfi, hmin] at h
          | true =>
            cases hmax : maxAmountCond p r with
            | error e => simp [rowPasses, rowPred, hm, hs, hfi, hmin, hmax] at h
            | ok bmax =>
              cases bmax with
              | false => simp [rowPasses, rowPred, hm, hs, hfi, hmin, hmax] at h
              | true =>
                refine ⟨rfl, rfl, rfl, rfl, rfl, ?_⟩
                simpa [rowPasses, rowPred, hm, hs, hfi, hmin, hmax] using h

/-- C7: on success, `get_all_projects` returns exactly the filtered rows
ordered by creation time most recent first, with `offset` rows of the
filtered ordered set skipped and at most `limit` rows kept: ordering and
pagination are applied to the filtered set. -/
theorem order_limit_offset_spec (p : Params) (table out : List ProjectRow)
    (hq : getAllProjects p table = Except.ok out) :
    out = ((sortByCreatedDesc (table.filter (rowPasses p))).drop p.offset).take p.limit ∧
    out.length ≤ p.limit ∧
    out.Pairwise (fun a b => b.created_at ≤ a.created_at) := by
  unfold getAllProjects at hq
  cases hm : filterExcept (rowPred p) table with
  | error e =>
    simp only [hm] at hq
    exact Except.noConfusion hq
  | ok m =>
    simp only [hm] at hq
    have hout := Except.ok.inj hq
    have hmf := filterExcept_ok p table m hm
    refine ⟨by rw [← hout, hmf], ?_, ?_⟩
    · rw [← hout]
      exact List.length_take_le _ _
    · rw [← hout]
      exact List.Pairwise.sublist
        ((List.take_sublist _ _).trans (List.drop_sublist _ _))
        (pairwise_sortByCreatedDesc m)

/-- Witness for C7 on a concrete two-row table with no filters. -/
theorem order_limit_offset_spec_witness :
    getAllProjects { } [rowNull, rowS] = Except.ok [rowS, rowNull] ∧
    List.Pairwise (fun a b : ProjectRow => b.created_at ≤ a.created_at)
      [rowS, rowNull] := by
  have hq : getAllProjects { } [rowNull, rowS] = Except.ok [rowS, rowNull] := rfl
  exact ⟨hq, (order_limit_offset_spec { } [rowNull, rowS] [rowS, rowNull] hq).2.2⟩

/-- C6: when a free-text term is supplied, a returned row matches the term
case-insensitively as a substring of the ministry name OR the nested
details-of-work field OR the nested contractor-name field, and it also
satisfies every other supplied filter clause (the disjunction is ANDed with
them). -/
theorem search_term_disjunction (p : Params) (r : ProjectRow)
    (table out : List ProjectRow) (t : String)
    (hs : p.search = some t) (ht : t ≠ "")
    (hq : getAllProjects p table = Except.ok out) (hr : r ∈ out) :
    (ilikeContains r.ministry t || ilikeOptContains r.details_of_work t ||
      ilikeOptContains r.contractor_name t) = true ∧
    ministryCond p r = true ∧ statusCond p r = true ∧ fiscalCond p r = true ∧
    minAmountCond p r = Except.ok true ∧ maxAmountCond p r = Except.ok true := by
  have hpass := mem_out_rowPasses p table out r hq hr
  obtain ⟨h1, h2, h3, h4, h5, h6⟩ := rowPasses_true p r hpass
  refine ⟨?_, h1, h2, h3, h4, h5⟩
  have hne : t.data ≠ [] := fun hd => ht (String.ext (by rw [hd]))
  have hst : strTruthy p.search = true := by
    rw [hs]
    simp [strTruthy, List.isEmpty_iff, hne]
  simp only [searchCond, hst] at h6
  simpa [hs] using h6

/-- Witness for C6 on a concrete search matching the details-of-work field. -/
theorem search_term_disjunction_witness :
    pSearch.search = some "Road" ∧ ("Road" : String) ≠ "" ∧
    getAllProjects pSearch [rowS] = Except.ok [rowS] ∧ rowS ∈ [rowS] ∧
    (ilikeContains rowS.ministry "Road" ||
      ilikeOptContains rowS.details_of_work "Road" ||
      ilikeOptContains rowS.contractor_name "Road") = true := by
  have hq : getAllProjects pSearch [rowS] = Except.ok [rowS] := rfl
  refine ⟨rfl, by decide, hq, by simp, ?_⟩
  exact (search_term_disjunction pSearch rowS [rowS] [rowS] "Road" rfl (by decide)
    hq (by simp)).1

/-- A NULL contract amount is rejected by an active amount clause without
any error. -/
lemma rowPasses_none_amount (p : Params) (r : ProjectRow)
    (hnone : r.contract_amount = none)
    (hamt : (amtTruthy p.min_amount || amtTruthy p.max_amount) = true) :
    rowPasses p r = false := by
  cases h1 : ministryCond p r <;> cases h2 : statusCond p r <;>
    cases h3 : fiscalCond p r <;> cases h4 : amtTruthy p.min_amount <;>
    cases h5 : amtTruthy p.max_amount <;>
    simp_all [rowPasses, rowPred, minAmountCond, maxAmountCond, castAmount, hnone]

/-- C5 (amended): a row whose contract amount is absent (SQL NULL) is
excluded per-row from any amount-bounded query (the NULL comparison never
matches) and the query still succeeds on it; when no amount filter is
supplied the cast is never evaluated, so no contract-amount value can fail
the row; but when an amount filter is supplied, a non-numeric value makes the
PostgreSQL cast abort the whole query with an error instead of excluding the
row. -/
theorem amount_filter_row_behavior (p : Params) (r : ProjectRow)
    (table out : List ProjectRow) :
    (r.contract_amount = none →
      (amtTruthy p.min_amount || amtTruthy p.max_amount) = true →
      getAllProjects p table = Except.ok out → r ∉ out) ∧
    (amtTruthy p.min_amount = false → amtTruthy p.max_amount = false →
      ∃ b, rowPred p r = Except.ok b) ∧
    (∀ s, r.contract_amount = some (ContractAmount.malformed s) →
      (amtTruthy p.min_amount || amtTruthy p.max_amount) = true →
      ministryCond p r = true → statusCond p r = true → fiscalCond p r = true →
      rowPred p r = Except.error ()) := by
  refine ⟨?_, ?_, ?_⟩
  · intro hnone hamt hq hro
    have hpass := mem_out_rowPasses p table out r hq hro
    rw [rowPasses_none_amount p r hnone hamt] at hpass
    cases hpass
  · intro h4 h5
    cases h1 : ministryCond p r with
    | false => exact ⟨false, by simp [rowPred, h1]⟩
    | true =>
      cases h2 : statusCond p r with
      | false => exact ⟨false, by simp [rowPred, h1, h2]⟩
      | true =>
        cases h3 : fiscalCond p r with
        | false => exact ⟨false, by simp [rowPred, h1, h2, h3]⟩
        | true =>
          exact ⟨searchCond p r,
            by simp [rowPred, h1, h2, h3, minAmountCond, maxAmountCond, h4, h5]⟩
  · intro s hs hamt hm hst hfi
    cases h4 : amtTruthy p.min_amount with
    | true =>
      simp [rowPred, hm, hst, hfi, minAmountCond, castAmount, hs, h4]
    | false =>
      have h5 : amtTruthy p.max_amount = true := by simpa [h4] using hamt
      simp [rowPred, hm, hst, hfi, minAmountCond, maxAmountCond, castAmount, hs, h4, h5]

/-- Witness for C5 (amended): a NULL-amount row against a minimum-amount
query is excluded without failing the query. -/
theorem amount_filter_row_behavior_witness :
    rowNull.contract_amount = none ∧
    (amtTruthy pMin.min_amount || amtTruthy pMin.max_amount) = true ∧
    getAllProjects pMin [rowNull] = Except.ok [] ∧
    rowNull ∉ ([] : List ProjectRow) := by
  have h1 : rowNull.contract_amount = none := rfl
  have h2 : (amtTruthy pMin.min_amount || amtTruthy pMin.max_amount) = true := rfl
  have h3 : getAllProjects pMin [rowNull] = Except.ok [] := rfl
  exact ⟨h1, h2, h3, (amount_filter_row_behavior pMin rowNull [rowNull] []).1 h1 h2 h3⟩

/-- Row scans with pointwise-equal WHERE clauses agree. -/
lemma filterExcept_congr (f g : ProjectRow → Except Unit Bool)
    (h : ∀ r, f r = g r) : ∀ l, filterExcept f l = filterExcept g l := by
  intro l
  induction l with
  | nil => rfl
  | cons x xs ih => simp only [filterExcept, h x, ih]

/-- Queries with pointwise-equal WHERE clauses and equal pagination agree. -/
lemma getAllProjects_congr (p q : Params)
    (h : ∀ r, rowPred p r = rowPred q r)
    (hl : p.limit = q.limit) (ho : p.offset = q.offset) (table : List ProjectRow) :
    getAllProjects p table = getAllProjects q table := by
  unfold getAllProjects
  rw [filterExcept_congr _ _ h table, hl, ho]

/-- C10: a falsy filter argument — the empty string for ministry, status,
fiscal year or search, and 0 for min or max amount — is treated exactly as an
absent filter: the query is identical to the one with that argument set to
None, so e.g. `min_amount = 0` does not constrain results at all. -/
theorem falsy_filters_ignored (p : Params) (table : List ProjectRow) :
    getAllProjects { p with ministry := some "" } table
      = getAllProjects { p with ministry := none } table ∧
    getAllProjects { p with status := some "" } table
      = getAllProjects { p with status := none } table ∧
    getAllProjects { p with fiscal_year := some "" } table
      = getAllProjects { p with fiscal_year := none } table ∧
    getAllProjects { p with search := some "" } table
      = getAllProjects { p with search := none } table ∧
    getAllProjects { p with min_amount := some 0 } table
      = getAllProjects { p with min_amount := none } table ∧
    getAllProjects { p with max_amount := some 0 } table
      = getAllProjects { p with max_amount := none } table := by
  refine ⟨?_, ?_, ?_, ?_, ?_, ?_⟩ <;>
    refine getAllProjects_congr _ _ (fun r => ?_) rfl rfl table <;>
    simp [rowPred, ministryCond, statusCond, fiscalCond, minAmountCond, maxAmountCond,
      searchCond, show strTruthy (some "") = false from rfl,
      show amtTruthy (some 0) = false from rfl,
      show strTruthy none = false from rfl,
      show amtTruthy none = false from rfl]

end Arison
